import Mathlib

/-!
# Pixel Pitch — verification of the Pixel Assignment & Checkout Fulfillment subsystem

Shallow embedding of the Pixel Pitch server and client code:

* `getPriceForColor` — the rare-color pricing function (server `part_004`
  lines 52–62 and the mirrored client copy in `part_002` lines 27–37);
* the Mongo-backed grid state: `Cell`, `Assignment`, `State`, seeded by
  `seedState` (`src/server/pixelpitch_seed.js`);
* the Express route handlers of `part_004`: `assign`
  (`POST /api/pixel-pitch/assign`), `getAllCells`
  (`GET /api/pixel-pitch/all`), `getRecentAssignments`
  (`GET /api/pixel-pitch/recent-assignments`), `createCheckoutSession`
  (`POST /api/pixel-pitch/create-checkout-session`);
* the client-side trigger that fires the assign request after the Stripe
  redirect (`part_002` lines 53–68);
* the Next.js checkout route `checkoutHandler`
  (`src/client/pages/api/create-checkout-session.js`).

Timestamps produced by mongoose `{ timestamps: true }` are modelled by a
logical clock on the state, incremented once per created `Assignment`.
JavaScript strings are `String`, JavaScript numbers on the integer-valued
paths are `Int`/`Nat`, and a possibly-absent or non-string request field is
an `Option`.
-/

namespace PixelPitch

/-- JavaScript `String.prototype.toLowerCase`, character by character. -/
def jsToLower (s : String) : String := ⟨s.data.map Char.toLower⟩

/-- The `RARE_PRICE_MAP` object literal of `part_004` lines 52–56 (and its
mirror in `part_002` lines 27–31), as a lookup returning `none` for a key
that is not a property of the object. -/
def RARE_PRICE_MAP (c : String) : Option Nat :=
  if c = "#ffd700" then some 500
  else if c = "#00ffff" then some 200
  else if c = "#ff00ff" then some 200
  else none

/-- `getPriceForColor` from `part_004` lines 58–62: a missing or non-string
`color` (here: `none`) and the empty string (JS-falsy) return 50; otherwise
the lowercased color is looked up in `RARE_PRICE_MAP`, defaulting to 50
(`RARE_PRICE_MAP[c] || 50`; every map value is nonzero, so `||` is `getD`). -/
def getPriceForColorOpt (color : Option String) : Nat :=
  match color with
  | none => 50
  | some c => if c = "" then 50 else (RARE_PRICE_MAP (jsToLower c)).getD 50

/-- `getPriceForColor` restricted to actual strings (the domain claim C4
quantifies over). -/
def getPriceForColor (c : String) : Nat := getPriceForColorOpt (some c)

/-- A pixel document (`models/pixel`): the seed script stores
`{ position, color, canvas }` with one canvas, so a cell is its position and
current color.  The Mongo `_id` is in bijection with `position` (one document
per position, created once, never deleted), so `position` stands in for the
document id. -/
structure Cell where
  position : Nat
  color : String
  deriving Repr, DecidableEq

/-- An assignment document (`models/assignment` inside
`src/server/pixelpitch_seed.js`): fields `pixelId` (ref to the pixel — here
its position, see `Cell`), `color`, and the mongoose timestamp `createdAt`.
The `position` field passed by `part_004` line 141 is not in the schema, so
strict mode drops it. -/
structure Assignment where
  pixelId : Nat
  color : String
  createdAt : Nat
  deriving Repr, DecidableEq

/-- The durable store: pixel documents in insertion (= seed) order, assignment
documents in insertion order, and the logical clock supplying `createdAt`. -/
structure State where
  cells : List Cell
  assignments : List Assignment
  clock : Nat
  deriving Repr, DecidableEq

/-- The seed script `src/server/pixelpitch_seed.js` lines 41–48: one pixel per
position `0 … N*N - 1`, all colored the blank default `"#ffffff"`, inserted in
position order; no assignments exist yet. -/
def seedState (N : Nat) : State :=
  { cells := (List.range (N * N)).map (fun p => { position := p, color := "#ffffff" })
    assignments := []
    clock := 0 }

/-- `Math.round(Math.sqrt(total))` on a natural number (`part_004` line 129):
round-to-nearest square root. -/
def jsSqrtRound (n : Nat) : Nat :=
  if 4 * n < (2 * Nat.sqrt n + 1) ^ 2 then Nat.sqrt n else Nat.sqrt n + 1

/-- `Pixel.countDocuments()` (`part_004` line 113). -/
def countDocuments (s : State) : Nat := s.cells.length

/-- `Pixel.findOne().skip(i)` (`part_004` line 120): the `i`-th pixel document
in the store's natural (seed) order. -/
def selectPixelCountSkip (cells : List Cell) (i : Nat) : Option Cell := cells[i]?

/-- Modelled from the spec's words, for comparison with the code's selection
(claim C5): "draw a uniform random integer in `[0, N*N)` directly" and use it
"as the position" — the selected cell is the one whose `position` equals the
drawn integer `k`. -/
def selectPixelDirect (cells : List Cell) (k : Nat) : Option Cell :=
  cells.find? (fun c => c.position == k)

/-- `pixel.color = color; pixel.save()` (`part_004` lines 134–135): mutate the
stored document(s) with the selected pixel's position. -/
def updateCellColor (cells : List Cell) (pos : Nat) (color : String) : List Cell :=
  cells.map (fun c => if c.position = pos then { c with color := color } else c)

/-- The JSON body the assign route returns on success (`part_004`
lines 144–150). -/
structure AssignResponse where
  color : String
  position : Nat
  x : Nat
  y : Nat
  deriving Repr, DecidableEq

/-- Outcome of `POST /api/pixel-pitch/assign`. -/
inductive AssignResult where
  /-- 400 `'Color is required'` (`part_004` lines 107–111). -/
  | badRequest
  /-- 500: no pixels, or the skip found nothing (`part_004` lines 114–116, 122–126). -/
  | serverError
  /-- 200 with the assigned pixel (`part_004` lines 144–150). -/
  | ok (r : AssignResponse)
  deriving Repr, DecidableEq

/-- The assign route `POST /api/pixel-pitch/assign` (`part_004` lines
103–157).  The request body carries only `color` (absent or non-string:
`none`); `randomIndex` stands for `Math.floor(Math.random() * total)`, a
uniform draw in `[0, total)`.  On success the route saves the recolored pixel
document and then, as a second separate write, inserts an `Assignment`; there
is no session identifier, no idempotency key, and no transaction. -/
def assign (s : State) (color : Option String) (randomIndex : Nat) :
    State × AssignResult :=
  match color with
  | none => (s, .badRequest)
  | some c =>
    if c = "" then (s, .badRequest)
    else if countDocuments s = 0 then (s, .serverError)
    else
      match selectPixelCountSkip s.cells randomIndex with
      | none => (s, .serverError)
      | some pixel =>
        let side := jsSqrtRound (countDocuments s)
        let cells' := updateCellColor s.cells pixel.position c
        let a : Assignment := { pixelId := pixel.position, color := c, createdAt := s.clock }
        ({ cells := cells', assignments := s.assignments ++ [a], clock := s.clock + 1 },
          .ok { color := c, position := pixel.position,
                x := pixel.position % side, y := pixel.position / side })

/-- The new state after an assign request (dropping the HTTP response). -/
def assignState (s : State) (color : Option String) (randomIndex : Nat) : State :=
  (assign s color randomIndex).1

/-- The sequence of durable-store states the assign route's success path makes
observable (`part_004` lines 133–142): the state before any write, the state
after `pixel.save()` but before `Assignment.create`, and the state after both
writes.  The two writes are separate awaited operations with no enclosing
transaction, so a failure between them leaves the middle state behind. -/
def assignWriteStates (s : State) (c : String) (randomIndex : Nat) : List State :=
  match selectPixelCountSkip s.cells randomIndex with
  | none => [s]
  | some pixel =>
    let s1 : State := { s with cells := updateCellColor s.cells pixel.position c }
    let a : Assignment := { pixelId := pixel.position, color := c, createdAt := s.clock }
    [s, s1, { s1 with assignments := s.assignments ++ [a], clock := s.clock + 1 }]

/-- `GET /api/pixel-pitch/all` (`part_004` lines 92–100):
`Pixel.find().sort({ position: 1 })` — every pixel document, sorted by
position ascending.  A pure read: the state is not changed. -/
def getAllCells (s : State) : List Cell :=
  List.insertionSort (fun a b => a.position ≤ b.position) s.cells

/-- `GET /api/pixel-pitch/recent-assignments` (`part_004` lines 160–174):
`Assignment.find({}).sort({ createdAt: -1 }).limit(10)` — assignment
documents sorted by `createdAt` descending, at most 10 of them.  A pure read:
the state is not changed. -/
def getRecentAssignments (s : State) : List Assignment :=
  (List.insertionSort (fun a b => b.createdAt ≤ a.createdAt) s.assignments).take 10

/-- Outcome of `POST /api/pixel-pitch/create-checkout-session`
(`part_004` lines 177–228). -/
inductive CheckoutSessionResult where
  /-- 400 `'Color is required'` (`part_004` lines 181–185): no session created. -/
  | badRequest
  /-- A Stripe Checkout session is created with this `unit_amount` (`priceCents`). -/
  | sessionCreated (priceCents : Nat) (isRare : Bool)
  deriving Repr, DecidableEq

/-- The checkout route of the Express server (`part_004` lines 177–228): any
missing, non-string or empty `color` is rejected with 400; every other string
leads to a Stripe session priced by `getPriceForColor`. -/
def createCheckoutSession (color : Option String) : CheckoutSessionResult :=
  match color with
  | none => .badRequest
  | some c =>
    if c = "" then .badRequest
    else .sessionCreated (getPriceForColor c) (decide (getPriceForColor c > 50))

/-- Modelled from the spec's words, for comparison with the code's validation
(claim C6): a "syntactically valid color value" for the hex-string color model
(`#` followed by six hexadecimal digits). -/
def isSyntacticallyValidColor (c : String) : Bool :=
  c.length = 7 && c.front == '#' && (c.drop 1).all (fun ch => ch.isDigit ||
    ('a' ≤ ch && ch ≤ 'f') || ('A' ≤ ch && ch ≤ 'F'))

/-- The query parameters of the page URL after the Stripe redirect
(`part_002` lines 56–59); each is `none` when absent. -/
structure UrlParams where
  success : Option String
  canceled : Option String
  color : Option String
  deriving Repr, DecidableEq

/-- The client effect of `part_002` lines 61–66: when the URL carries
`success=true` and a non-empty `color`, the page fires
`assignPixelAfterPayment(returnedColor)`, a `POST /api/pixel-pitch/assign`
with exactly that color.  Returns the color POSTed, or `none` when no assign
request is made.  The parameters are part of a client-controlled URL. -/
def clientAssignTrigger (p : UrlParams) : Option String :=
  match p.success, p.color with
  | some s, some c => if s = "true" && c ≠ "" then some c else none
  | _, _ => none

/-- Body fields of the Next.js route
`src/client/pages/api/create-checkout-session.js`: a field that is absent or
not a number (respectively not a string) is `none`. -/
structure CheckoutRequest where
  pixelIndex : Option Int
  color : Option String
  pixels : Option Int
  deriving Repr, DecidableEq

/-- `pixelCount` of the Next.js route (line 32–33):
`typeof pixels === "number" && pixels > 0 ? pixels : 1`. -/
def pixelCountOf (pixels : Option Int) : Int :=
  match pixels with
  | some n => if 0 < n then n else 1
  | none => 1

/-- Outcome of the Next.js route. -/
inductive CheckoutHandlerResult where
  /-- 405 for a non-POST method (lines 24–27). -/
  | methodNotAllowed
  /-- 400 `"Missing pixelIndex or color in request body."` (lines 35–39). -/
  | missingFields
  /-- A Stripe session whose single line item charges `amountInCents` (lines 40–80). -/
  | charged (amountInCents : Int)
  deriving Repr, DecidableEq

/-- The Next.js route `POST /api/create-checkout-session`
(`src/client/pages/api/create-checkout-session.js` lines 23–81): after the
method check, `pixelCount` is computed from `pixels`, requests missing a
numeric `pixelIndex` or a truthy `color` are rejected, and the charged amount
is `pixelCount * 100` cents (line 42), with `color` only echoed into metadata
and URLs, never priced. -/
def checkoutHandler (method : String) (req : CheckoutRequest) : CheckoutHandlerResult :=
  if method ≠ "POST" then .methodNotAllowed
  else
    match req.pixelIndex, req.color with
    | some _, some c =>
      if c = "" then .missingFields
      else .charged (pixelCountOf req.pixels * 100)
    | _, _ => .missingFields

/-- The most recent `Assignment` targeting position `pos`: documents are
inserted in `createdAt` order (see `timestampsSound`), so the last matching
document is the one with the latest `createdAt`. -/
def latestAssignmentTargeting (s : State) (pos : Nat) : Option Assignment :=
  (s.assignments.filter (fun a => a.pixelId == pos)).getLast?

/-- Every cell's color is the color of the most recent assignment targeting
its position, or the blank default `"#ffffff"` when none targets it. -/
def colorInvariant (s : State) : Prop :=
  ∀ c ∈ s.cells,
    c.color = ((latestAssignmentTargeting s c.position).map Assignment.color).getD "#ffffff"

/-- The mongoose `createdAt` timestamps are strictly increasing in insertion
order and below the clock, so "last inserted" = "latest `createdAt`". -/
def timestampsSound (s : State) : Prop :=
  (∀ a ∈ s.assignments, a.createdAt < s.clock)
  ∧ s.assignments.Pairwise (fun a b => a.createdAt < b.createdAt)

/-- The store states the server can produce: a freshly seeded canvas, and any
number of assign requests (each with an arbitrary request body and an
arbitrary random draw). -/
inductive Reachable : State → Prop where
  | seed (N : Nat) : Reachable (seedState N)
  | step (s : State) (color : Option String) (r : Nat) :
      Reachable s → Reachable (assignState s color r)

/-! ## Helper lemmas -/

/-- Case analysis of the assign route: either the request is rejected and the
state is unchanged, or a pixel was found and both writes happen. -/
lemma assign_cases (s : State) (color : Option String) (r : Nat) :
    assignState s color r = s ∨
    ∃ (c : String) (pixel : Cell), color = some c ∧ c ≠ "" ∧
      s.cells[r]? = some pixel ∧
      assignState s color r =
        { cells := updateCellColor s.cells pixel.position c,
          assignments := s.assignments ++ [⟨pixel.position, c, s.clock⟩],
          clock := s.clock + 1 } := by
  cases color with
  | none => left; rfl
  | some c =>
    by_cases hc : c = ""
    · left; simp [assignState, assign, hc]
    · by_cases h0 : countDocuments s = 0
      · left; simp [assignState, assign, hc, h0]
      · cases hget : s.cells[r]? with
        | none =>
          left
          simp [assignState, assign, hc, h0, selectPixelCountSkip, hget]
        | some pixel =>
          right
          exact ⟨c, pixel, rfl, hc, rfl,
            by simp [assignState, assign, hc, h0, selectPixelCountSkip, hget]⟩


/-- `getPriceForColor` factors through the lowercased lookup, including on the
empty string (whose lookup also misses the table). -/
lemma getPriceForColor_eq (c : String) :
    getPriceForColor c = (RARE_PRICE_MAP (jsToLower c)).getD 50 := by
  by_cases h : c = ""
  · subst h; rfl
  · simp [getPriceForColor, getPriceForColorOpt, h]

instance : IsTotal Cell (fun a b => a.position ≤ b.position) :=
  ⟨fun a b => Nat.le_total a.position b.position⟩

instance : IsTrans Cell (fun a b => a.position ≤ b.position) :=
  ⟨fun _ _ _ hab hbc => Nat.le_trans hab hbc⟩

instance : IsTotal Assignment (fun a b => b.createdAt ≤ a.createdAt) :=
  ⟨fun a b => Nat.le_total b.createdAt a.createdAt⟩

instance : IsTrans Assignment (fun a b => b.createdAt ≤ a.createdAt) :=
  ⟨fun _ _ _ hab hbc => Nat.le_trans hbc hab⟩

/-- Delivering the same completion notification `n` times: the client reacts
to each delivery by POSTing the same color to the assign route
(`part_002` lines 61–63, `part_004` lines 103–157). -/
def replayAssign (s : State) (c : String) (r : Nat) : Nat → State
  | 0 => s
  | n + 1 => assignState (replayAssign s c r n) (some c) r

/-- A successful assign request preserves the number of pixel documents
(`updateCellColor` is a per-document mutation). -/
lemma assignState_cells_length (s : State) (color : Option String) (r : Nat) :
    (assignState s color r).cells.length = s.cells.length := by
  rcases assign_cases s color r with heq | ⟨c, pixel, _, _, _, heq⟩
  · rw [heq]
  · rw [heq]
    simp [updateCellColor]

/-- An assign request with a non-empty color and an in-range random index
appends exactly one `Assignment`. -/
lemma assignState_appends_one (s : State) (c : String) (r : Nat)
    (hc : c ≠ "") (hr : r < s.cells.length) :
    (assignState s (some c) r).assignments.length = s.assignments.length + 1 := by
  have hget : s.cells[r]? = some (s.cells.get ⟨r, hr⟩) := List.getElem?_eq_getElem hr
  have h0 : countDocuments s ≠ 0 := by
    simp only [countDocuments]
    omega
  simp [assignState, assign, hc, h0, selectPixelCountSkip, hget]

/-- On a list whose documents have positions `off, off + 1, …` in order, the
first document whose position is `off + k` is the `k`-th one. -/
lemma find?_position_dense :
    ∀ (cells : List Cell) (off k : Nat),
      (∀ (i : Nat) (c : Cell), cells[i]? = some c → c.position = off + i) →
      k < cells.length →
      cells.find? (fun c => c.position == off + k) = cells[k]? := by
  intro cells
  induction cells with
  | nil =>
    intro off k _ hk
    simp at hk
  | cons c0 tl ih =>
    intro off k h hk
    have h0 : c0.position = off := by
      have := h 0 c0 (by simp)
      omega
    cases k with
    | zero =>
      rw [List.find?_cons_of_pos]
      · simp
      · simp [h0]
    | succ j =>
      rw [List.find?_cons_of_neg]
      · have htl : ∀ (i : Nat) (c : Cell), tl[i]? = some c →
            c.position = (off + 1) + i := by
          intro i c hc
          have := h (i + 1) c (by simpa using hc)
          omega
        have hrec := ih (off + 1) j htl (by simpa using Nat.lt_of_succ_lt_succ hk)
        simp only [show off + (j + 1) = off + 1 + j from by omega]
        simpa using hrec
      · simp only [beq_iff_eq, h0]
        omega

/-! ## Claim theorems -/

/-- Counterexample to C5: the assign route's selection is
`findOne().skip(randomIndex)` after `countDocuments()` — skip-to-index over
the live document enumeration — not a direct draw used as the position.  On a
store whose two documents sit at positions 0 and 3, drawing 1 selects the
document at offset 1 (position 3), while using the drawn integer as the
position selects nothing. -/
theorem selection_is_count_skip_not_direct_cex :
    selectPixelCountSkip [⟨0, "#ffffff"⟩, ⟨3, "#ffffff"⟩] 1
      ≠ selectPixelDirect [⟨0, "#ffffff"⟩, ⟨3, "#ffffff"⟩] 1
    ∧ (selectPixelCountSkip [⟨0, "#ffffff"⟩, ⟨3, "#ffffff"⟩] 1).map Cell.position
      = some 3
    ∧ selectPixelDirect [⟨0, "#ffffff"⟩, ⟨3, "#ffffff"⟩] 1 = none := by decide

/-- C5 amended: the target cell is selected by counting the live pixel
documents and skipping to a uniformly drawn index in `[0, total)` — the
count-then-skip pattern.  Because the seed creates pixels densely (`position
i` at offset `i`) and the population is fixed at `N * N`, this coincides
extensionally with drawing a uniform integer in `[0, N*N)` and using it as
the position. -/
theorem selectPixelCountSkip_eq_direct_of_dense (cells : List Cell)
    (N k : Nat) (hmap : cells.map Cell.position = List.range cells.length)
    (hlen : cells.length = N * N) (hk : k < N * N) :
    selectPixelCountSkip cells k = selectPixelDirect cells k := by
  have hdense : ∀ (i : Nat) (c : Cell), cells[i]? = some c →
      c.position = 0 + i := by
    intro i c hc
    have hi : i < cells.length := by
      by_contra hlt
      push_neg at hlt
      rw [List.getElem?_eq_none hlt] at hc
      cases hc
    have hmi : (cells.map Cell.position)[i]? = some c.position := by
      rw [List.getElem?_map, hc]
      rfl
    rw [hmap, List.getElem?_range hi] at hmi
    injection hmi with hip
    omega
  have hfind := find?_position_dense cells 0 k hdense (by omega)
  simp only [Nat.zero_add] at hfind
  simp [selectPixelCountSkip, selectPixelDirect, hfind]

/-- Witness for the amended C5: on the densely seeded 2×2 canvas both
selections agree at draw 3. -/
theorem selectPixelCountSkip_eq_direct_of_dense_witness :
    selectPixelCountSkip (seedState 2).cells 3
      = selectPixelDirect (seedState 2).cells 3 :=
  selectPixelCountSkip_eq_direct_of_dense (seedState 2).cells 2 3
    (by decide) (by decide) (by decide)

/-- Counterexample to C6: `"zzz"` is not a syntactically valid color value,
yet the checkout route accepts it and creates a payment session (priced at
the base 50 cents); the route never checks syntactic validity. -/
theorem checkout_accepts_syntactically_invalid_color_cex :
    isSyntacticallyValidColor "zzz" = false
    ∧ createCheckoutSession (some "zzz") = .sessionCreated 50 false := by decide

/-- C6 amended: session creation rejects a missing, non-string or empty
`requestedColor` with a 400 error and creates no session for such input; every
non-empty string — syntactically valid color or not — is accepted and a
session is created at the `getPriceForColor` price. -/
theorem createCheckoutSession_rejects_only_empty :
    createCheckoutSession none = .badRequest
    ∧ createCheckoutSession (some "") = .badRequest
    ∧ ∀ c : String, c ≠ "" →
        createCheckoutSession (some c)
          = .sessionCreated (getPriceForColor c)
              (decide (getPriceForColor c > 50)) := by
  refine ⟨rfl, rfl, ?_⟩
  intro c hc
  simp [createCheckoutSession, hc]

/-- Witness for the amended C6: a concrete non-empty (and invalid) color is
accepted with the base price. -/
theorem createCheckoutSession_rejects_only_empty_witness :
    createCheckoutSession (some "zz") = .sessionCreated 50 false :=
  (createCheckoutSession_rejects_only_empty.2.2 "zz" (by decide)).trans
    (by decide)

/-- Counterexample to C1: on a freshly seeded 2×2 canvas, delivering the same
completion notification twice (the client POSTs the same color to the assign
route after each delivery) produces a second `Assignment` beyond the first —
the ledger grows from one entry to two, so the operation is not idempotent
under replay.  There is no session identity anywhere in the assign path. -/
theorem assign_replay_not_idempotent_cex :
    (assignState (seedState 2) (some "#aa0000") 1).assignments.length = 1
    ∧ (assignState (assignState (seedState 2) (some "#aa0000") 1)
        (some "#aa0000") 1).assignments.length = 2 := by decide

/-- C1 amended: the assign route has no idempotency key (the request body
carries only a color, no session identity), so each delivery of the same
completion notification appends one more `Assignment` and performs one more
cell write: `n` deliveries produce exactly `n` ledger entries. -/
theorem assign_replay_appends_n (s : State) (c : String) (r : Nat) (n : Nat)
    (hc : c ≠ "") (hr : r < s.cells.length) :
    (replayAssign s c r n).assignments.length = s.assignments.length + n := by
  induction n with
  | zero => rfl
  | succ m ih =>
    have hlen : (replayAssign s c r m).cells.length = s.cells.length := by
      clear ih
      induction m with
      | zero => rfl
      | succ k ihk => rw [replayAssign, assignState_cells_length, ihk]
    have := assignState_appends_one (replayAssign s c r m) c r hc (hlen ▸ hr)
    rw [replayAssign, this, ih]
    omega

/-- Witness for the amended C1: three deliveries on the seeded 2×2 canvas
leave three ledger entries. -/
theorem assign_replay_appends_n_witness :
    (replayAssign (seedState 2) "#aa0000" 1 3).assignments.length
      = (seedState 2).assignments.length + 3 :=
  assign_replay_appends_n (seedState 2) "#aa0000" 1 3 (by decide) (by decide)

/-- Counterexample to C2: forged client-controlled URL parameters
`?success=true&color=#00bb00` (never issued by any gateway event — the whole
path from `clientAssignTrigger` through `assign` consumes no payment data and
performs no authenticity check) make the client POST the color to the assign
route, which creates an `Assignment` and mutates a cell.  A client-initiated
request therefore does trigger the cell/ledger mutation. -/
theorem assign_triggered_by_forged_params_cex :
    clientAssignTrigger
        { success := some "true", canceled := none, color := some "#00bb00" }
      = some "#00bb00"
    ∧ (assignState (seedState 2)
        (clientAssignTrigger
          { success := some "true", canceled := none, color := some "#00bb00" }) 0).assignments.length
      = (seedState 2).assignments.length + 1
    ∧ (assignState (seedState 2)
        (clientAssignTrigger
          { success := some "true", canceled := none, color := some "#00bb00" }) 0).cells
      ≠ (seedState 2).cells := by decide

/-- C2 amended: an `Assignment` is created in response to a plain
client-initiated request: whenever the client-controlled URL parameters make
`clientAssignTrigger` fire (success=true plus a non-empty color), the resulting
unauthenticated POST to the assign route appends an `Assignment` and returns
success; no gateway server-to-server notification channel exists in the code
and no authenticity check is performed. -/
theorem assign_triggered_by_client_params (p : UrlParams) (c : String)
    (s : State) (r : Nat) (hp : clientAssignTrigger p = some c)
    (hr : r < s.cells.length) :
    (assignState s (clientAssignTrigger p) r).assignments.length
      = s.assignments.length + 1
    ∧ ∃ resp, (assign s (clientAssignTrigger p) r).2 = .ok resp := by
  have hc : c ≠ "" := by
    unfold clientAssignTrigger at hp
    rcases p with ⟨psucc, pcanc, pcol⟩
    rcases psucc with _ | ps <;> rcases pcol with _ | pc <;> simp at hp
    rcases hp with ⟨⟨-, hne⟩, rfl⟩
    exact hne
  rw [hp]
  refine ⟨assignState_appends_one s c r hc hr, ?_⟩
  have hget : s.cells[r]? = some (s.cells.get ⟨r, hr⟩) := List.getElem?_eq_getElem hr
  have h0 : countDocuments s ≠ 0 := by
    simp only [countDocuments]
    omega
  have hok : (assign s (some c) r).2 = .ok
      { color := c, position := (s.cells.get ⟨r, hr⟩).position,
        x := (s.cells.get ⟨r, hr⟩).position % jsSqrtRound (countDocuments s),
        y := (s.cells.get ⟨r, hr⟩).position / jsSqrtRound (countDocuments s) } := by
    simp [assign, hc, h0, selectPixelCountSkip, hget]
  exact ⟨_, hok⟩

/-- Witness for the amended C2: the forged parameters applied on the seeded
2×2 canvas. -/
theorem assign_triggered_by_client_params_witness :
    (assignState (seedState 2)
        (clientAssignTrigger
          { success := some "true", canceled := none, color := some "#00bb00" }) 0).assignments.length
      = (seedState 2).assignments.length + 1
    ∧ ∃ resp, (assign (seedState 2)
        (clientAssignTrigger
          { success := some "true", canceled := none, color := some "#00bb00" }) 0).2 = .ok resp :=
  assign_triggered_by_client_params
    { success := some "true", canceled := none, color := some "#00bb00" }
    "#00bb00" (seedState 2) 0 (by decide) (by decide)

/-- Counterexample to C3: the claim — every store state the assign step makes
observable has the ledger write if and only if it has the cell write — is
false on the seeded 2×2 canvas: the state after `pixel.save()` and before
`Assignment.create` (the middle element of `assignWriteStates`) has the cell
recolored while the ledger is unchanged. -/
theorem assign_not_atomic_cex :
    ¬ ∀ s' ∈ assignWriteStates (seedState 2) "#aa0000" 1,
        (s'.cells = (seedState 2).cells ↔
          s'.assignments = (seedState 2).assignments) := by decide

/-- C3 amended: the assign step is two separate sequential durable writes —
the cell save first, the ledger insert second, with no enclosing transaction.
The intermediate state (left behind by a failure between the writes) carries
the cell update without any new `Assignment`, and only the final state
carries both. -/
theorem assign_writes_cell_before_ledger (s : State) (c : String) (r : Nat)
    (pixel : Cell) (hget : s.cells[r]? = some pixel) (hc : c ≠ "") :
    (assignWriteStates s c r)[1]? =
      some { s with cells := updateCellColor s.cells pixel.position c }
    ∧ (assignWriteStates s c r).getLast? = some (assignState s (some c) r) := by
  have hr : r < s.cells.length := by
    by_contra hlt
    push_neg at hlt
    rw [List.getElem?_eq_none hlt] at hget
    cases hget
  have h0 : countDocuments s ≠ 0 := by
    simp only [countDocuments]
    omega
  constructor
  · simp [assignWriteStates, selectPixelCountSkip, hget]
  · simp [assignWriteStates, selectPixelCountSkip, hget, assignState, assign, hc, h0]

/-- Witness for the amended C3: the two-write decomposition on the seeded 2×2
canvas. -/
theorem assign_writes_cell_before_ledger_witness :
    (assignWriteStates (seedState 2) "#aa0000" 1)[1]? =
      some { seedState 2 with
              cells := updateCellColor (seedState 2).cells 1 "#aa0000" }
    ∧ (assignWriteStates (seedState 2) "#aa0000" 1).getLast?
      = some (assignState (seedState 2) (some "#aa0000") 1) :=
  assign_writes_cell_before_ledger (seedState 2) "#aa0000" 1
    { position := 1, color := "#ffffff" } (by decide) (by decide)

/-- C4: `getPriceForColor` is a pure, deterministic, total function on
strings: it depends only on the lowercased input (case-insensitive comparison
against the fixed rare-color table `RARE_PRICE_MAP`), returns the base price
50 for every color not in the table (unrecognized or malformed), and in
particular prices `"#FFD700"` at 500 and `"#123456"` at 50.  Totality and
determinism hold because it is a Lean function on all of `String`. -/
theorem getPriceForColor_pure_total_caseInsensitive :
    (∀ c₁ c₂ : String, jsToLower c₁ = jsToLower c₂ →
      getPriceForColor c₁ = getPriceForColor c₂)
    ∧ getPriceForColor "#FFD700" = 500
    ∧ getPriceForColor "#123456" = 50
    ∧ ∀ c : String, RARE_PRICE_MAP (jsToLower c) = none → getPriceForColor c = 50 := by
  refine ⟨?_, by decide, by decide, ?_⟩
  · intro c₁ c₂ h
    rw [getPriceForColor_eq, getPriceForColor_eq, h]
  · intro c h
    rw [getPriceForColor_eq, h]
    rfl

/-- Witness for C4: the case-insensitivity and fallback clauses applied at
concrete colors. -/
theorem getPriceForColor_pure_total_caseInsensitive_witness :
    getPriceForColor "#FfD700" = getPriceForColor "#ffd700"
    ∧ getPriceForColor "#zz" = 50 :=
  ⟨getPriceForColor_pure_total_caseInsensitive.1 "#FfD700" "#ffd700" (by decide),
   getPriceForColor_pure_total_caseInsensitive.2.2.2 "#zz" (by decide)⟩

/-- C8: `getAllCells` returns all cells, ordered by `position` ascending: the
result is sorted by position and is a permutation of the stored cells.  It is
a pure read — `getAllCells` is a function of the state and does not produce a
new state — and in this sequential model of the store it reads one consistent
snapshot. -/
theorem getAllCells_sorted_complete (s : State) :
    List.Sorted (fun a b : Cell => a.position ≤ b.position) (getAllCells s)
    ∧ (getAllCells s).Perm s.cells :=
  ⟨List.sorted_insertionSort _ s.cells, List.perm_insertionSort _ s.cells⟩

/-- Witness for C8: the ordered full read evaluated on a concrete store. -/
theorem getAllCells_sorted_complete_witness :
    List.Sorted (fun a b : Cell => a.position ≤ b.position)
      (getAllCells
        { cells := [⟨3, "a"⟩, ⟨1, "b"⟩, ⟨2, "c"⟩], assignments := [], clock := 0 })
    ∧ (getAllCells
        { cells := [⟨3, "a"⟩, ⟨1, "b"⟩, ⟨2, "c"⟩], assignments := [], clock := 0 }).Perm
        [⟨3, "a"⟩, ⟨1, "b"⟩, ⟨2, "c"⟩] :=
  getAllCells_sorted_complete
    { cells := [⟨3, "a"⟩, ⟨1, "b"⟩, ⟨2, "c"⟩], assignments := [], clock := 0 }

/-- C9: `getRecentAssignments` returns at most 10 assignments, ordered most
recent first (descending `createdAt`), all drawn from the stored assignments.
It is a pure read: a function of the state producing no new state. -/
theorem getRecentAssignments_sorted_bounded (s : State) :
    List.Sorted (fun a b : Assignment => b.createdAt ≤ a.createdAt)
      (getRecentAssignments s)
    ∧ (getRecentAssignments s).length ≤ 10
    ∧ ∀ a ∈ getRecentAssignments s, a ∈ s.assignments := by
  refine ⟨?_, ?_, ?_⟩
  · exact List.Pairwise.sublist (List.take_sublist _ _)
      (List.sorted_insertionSort _ s.assignments)
  · exact List.length_take_le _ _
  · intro a ha
    exact (List.perm_insertionSort _ s.assignments).subset
      (List.take_subset _ _ ha)

/-- Witness for C9: the bounded ordered read evaluated on a concrete store. -/
theorem getRecentAssignments_sorted_bounded_witness :
    (getRecentAssignments
      { cells := [], assignments := [⟨0, "a", 0⟩, ⟨1, "b", 5⟩, ⟨2, "c", 3⟩],
        clock := 9 }).length ≤ 10 :=
  (getRecentAssignments_sorted_bounded
    { cells := [], assignments := [⟨0, "a", 0⟩, ⟨1, "b", 5⟩, ⟨2, "c", 3⟩],
      clock := 9 }).2.1

/-- C10: for every request the Next.js route accepts (method `POST`, numeric
`pixelIndex`, truthy `color`), the charged amount is `pixelCount * 100` cents,
where `pixelCount` is the `pixels` field when it is a number greater than 0
and 1 otherwise; the amount does not depend on the requested color, and the
rare-color table is never consulted on this path (`checkoutHandler` prices
with `pixelCountOf`, not `getPriceForColor`). -/
theorem checkoutHandler_charges_pixelCount (i : Int) (c c' : String)
    (px : Option Int) (hc : c ≠ "") (hc' : c' ≠ "") :
    checkoutHandler "POST" ⟨some i, some c, px⟩
      = .charged (pixelCountOf px * 100)
    ∧ checkoutHandler "POST" ⟨some i, some c, px⟩
      = checkoutHandler "POST" ⟨some i, some c', px⟩
    ∧ (∀ n : Int, px = some n → 0 < n → pixelCountOf px = n)
    ∧ (∀ n : Int, px = some n → ¬ 0 < n → pixelCountOf px = 1)
    ∧ (px = none → pixelCountOf px = 1) := by
  refine ⟨?_, ?_, ?_, ?_, ?_⟩
  · simp [checkoutHandler, hc]
  · simp [checkoutHandler, hc, hc']
  · intro n hn hpos; subst hn; simp [pixelCountOf, hpos]
  · intro n hn hpos; subst hn; simp [pixelCountOf, hpos]
  · intro hn; subst hn; rfl

/-- C7: in every reachable store state, each cell's current color equals the
color of the most recent `Assignment` targeting its position (`"most recent"`
is well defined because `createdAt` timestamps are strictly increasing in
insertion order), or the blank default `"#ffffff"` if no assignment targets
it.  The invariant holds after seeding and is preserved by every assign
request. -/
theorem reachable_color_matches_latest_assignment (s : State) (h : Reachable s) :
    timestampsSound s ∧ colorInvariant s := by
  induction h with
  | seed N =>
    refine ⟨⟨by simp [seedState], by simp [seedState]⟩, ?_⟩
    intro c hc
    simp only [seedState, List.mem_map, List.mem_range] at hc
    obtain ⟨p, _, rfl⟩ := hc
    simp [latestAssignmentTargeting, seedState]
  | step s color r _ ih =>
    obtain ⟨⟨hlt, hpair⟩, hinv⟩ := ih
    rcases assign_cases s color r with heq | ⟨c, pixel, _, _, _, heq⟩
    · rw [heq]; exact ⟨⟨hlt, hpair⟩, hinv⟩
    · rw [heq]
      refine ⟨⟨?_, ?_⟩, ?_⟩
      · intro a ha
        rcases List.mem_append.1 ha with ha | ha
        · exact Nat.lt_succ_of_lt (hlt a ha)
        · simp only [List.mem_singleton] at ha
          subst ha
          exact Nat.lt_succ_self _
      · rw [List.pairwise_append]
        refine ⟨hpair, by simp, ?_⟩
        intro a ha b hb
        simp only [List.mem_singleton] at hb
        subst hb
        exact hlt a ha
      · intro cell hcell
        simp only [updateCellColor, List.mem_map] at hcell
        obtain ⟨c0, hc0, rfl⟩ := hcell
        by_cases hpos : c0.position = pixel.position
        · simp only [hpos, if_pos rfl, latestAssignmentTargeting,
            List.filter_append]
          simp [hpos]
        · simp only [if_neg hpos, latestAssignmentTargeting,
            List.filter_append]
          have hfilter :
              List.filter (fun a => a.pixelId == c0.position)
                  [(⟨pixel.position, c, s.clock⟩ : Assignment)] = [] := by
            simp [Ne.symm hpos]
          rw [hfilter, List.append_nil]
          exact hinv c0 hc0

/-- Witness for C7: the invariant at the concrete reachable state obtained by
seeding a 2×2 canvas and serving one assign request. -/
theorem reachable_color_matches_latest_assignment_witness :
    timestampsSound (assignState (seedState 2) (some "#aa0000") 1)
    ∧ colorInvariant (assignState (seedState 2) (some "#aa0000") 1) :=
  reachable_color_matches_latest_assignment _
    (Reachable.step _ _ _ (Reachable.seed 2))

/-- Witness for C10: a concrete request with `pixels = 3` is charged 300
cents regardless of color. -/
theorem checkoutHandler_charges_pixelCount_witness :
    checkoutHandler "POST" ⟨some 7, some "#ffd700", some 3⟩ = .charged 300
    ∧ checkoutHandler "POST" ⟨some 7, some "#ffd700", some 3⟩
      = checkoutHandler "POST" ⟨some 7, some "#123456", some 3⟩ := by
  have h := checkoutHandler_charges_pixelCount 7 "#ffd700" "#123456" (some 3)
    (by decide) (by decide)
  exact ⟨h.1.trans (by decide), h.2.1⟩

end PixelPitch
